import Mathlib

/-!
Verification of the barcode scan-to-stock pipeline, scanner lifecycle and
CRUD server actions of the x8n inventory application.

The definitions below are shallow embeddings of the TypeScript source:

* `Product`, `findProductByBarcode`, `incrementProductStock`,
  `handleBarcodeScanned` — the scan resolution pipeline
  (`src/components/inventory/BarcodeScannerModal.tsx`, `handleBarcodeScanned`,
  and the server actions it invokes).
* `ZState`, `onDecode`, `onResolve`, `onTimer` — the decode event filter of the
  ZXing scanner variant (`unnamed/part_005`, decode callback in `startScanner`
  lines 194-216, `handleError`, `handleBarcodeScanned` lines 294-379).
* `MState`, `mDecode`, `mResolve`, `mTimer` — the decode event filter of the
  html5-qrcode variant (`BarcodeScannerModal.tsx`, `qrCodeSuccessCallback`
  lines 55-82).
* `selectBestCamera`, `stopScanner` — camera selection and teardown
  (`unnamed/part_005` lines 92-128 and 276-289).
* `uploadProductImage`, `deleteProductImage` — object storage actions
  (`src/app/actions/upload.ts`).
* `deleteCategory` — category deletion guard (categories server action).
* `getProducts`, `searchProducts` — product list and search
  (`src/app/actions/products.ts`).
-/

namespace X8n

/-- A row of the `products` table, restricted to the fields the verified
code paths read (`src/types/product.ts`). -/
structure Product where
  id : String
  name : String
  code : String
  stock_quantity : Nat
  category_id : Option String
  created_at : Nat
deriving DecidableEq, Repr

/-- Modelled from the spec: `findProductByBarcode` is imported by both scanner
modals from `@/app/actions/products` but its definition is absent from the
sources; the spec says the pipeline performs a lookup by exact code match
against the product set of the authenticated user.  That product set
is the list `store`; the lookup returns the first product whose `code` equals
the decoded text, `none` when the code is absent. -/
def findProductByBarcode (store : List Product) (code : String) : Option Product :=
  store.find? (fun p => p.code = code)

/-- Stock update applied by the increment mutation to a single row,
identified by product id. -/
def updStock (pid : String) (q : Product) : Product :=
  if q.id = pid then { q with stock_quantity := q.stock_quantity + 1 } else q

/-- Modelled from the spec: `incrementProductStock` is imported by the scanner
modals from `@/app/actions/products` but its definition is absent from the
sources; the spec says the pipeline issues "an atomic increment stock by 1
mutation scoped to that product id and the same user", a single remote call
rather than a client-side read-modify-write, returning the updated row (the
callers read `updateResult.data?.stock_quantity` and `updateResult.data?.name`).
The mutation bumps the stock of the row with the given id and returns the new
store together with the updated row. -/
def incrementProductStock (store : List Product) (pid : String) :
    List Product × Option Product :=
  let store2 := store.map (updStock pid)
  (store2, store2.find? (fun q => q.id = pid))

/-- Outcome of one run of the scan resolution pipeline
(`handleBarcodeScanned` in `BarcodeScannerModal.tsx`, lines 113-190). -/
inductive ScanOutcome where
  | lookupFailed
  | updateFailed (name : String)
  | updated (name : String) (stockBefore stockAfter : Nat)
  | notFoundP (code : String)
deriving DecidableEq, Repr

/-- Observable result of one accepted scan: the pipeline outcome, the remote
store after the scan, the number of increment-stock mutations issued, and the
argument passed to the `onProductNotFound` callback (if invoked). -/
structure PipeResult where
  outcome : ScanOutcome
  store : List Product
  incrementCalls : Nat
  notFoundCb : Option String
deriving DecidableEq, Repr

/-- The scan resolution pipeline of `BarcodeScannerModal.tsx`
(`handleBarcodeScanned`, lines 113-190): look the product up by barcode; on
lookup transport failure report an error without mutating; when found, issue
exactly one increment-stock mutation and report `stockBefore`/`stockAfter`,
where `stockAfter` falls back to `stockBefore + 1` when the update returns no
row or a falsy stock (the source reads
`updateResult.data?.stock_quantity || stockBefore + 1`), and the displayed
name falls back likewise; when not found, invoke `onProductNotFound` with the
decoded barcode and issue no mutation.  `lookupOk` and `updateOk` model
whether the respective remote calls succeed at the transport level. -/
def handleBarcodeScanned (lookupOk updateOk : Bool) (store : List Product)
    (barcode : String) : PipeResult :=
  if lookupOk = false then ⟨.lookupFailed, store, 0, none⟩
  else
    match findProductByBarcode store barcode with
    | some p =>
      if updateOk = false then ⟨.updateFailed p.name, store, 1, none⟩
      else
        let res := incrementProductStock store p.id
        let stockBefore := p.stock_quantity
        let stockAfter :=
          match res.2 with
          | some q => if q.stock_quantity = 0 then stockBefore + 1 else q.stock_quantity
          | none => stockBefore + 1
        let shownName :=
          match res.2 with
          | some q => if q.name = "" then p.name else q.name
          | none => p.name
        ⟨.updated shownName stockBefore stockAfter, res.1, 1, none⟩
    | none => ⟨.notFoundP barcode, store, 0, some barcode⟩

theorem updStock_id (pid : String) (q : Product) : (updStock pid q).id = q.id := by
  unfold updStock; split <;> rfl

theorem updStock_name (pid : String) (q : Product) : (updStock pid q).name = q.name := by
  unfold updStock; split <;> rfl

theorem updStock_self (p : Product) :
    updStock p.id p = { p with stock_quantity := p.stock_quantity + 1 } := by
  unfold updStock; simp

/-- In a store with no duplicate ids, looking the product back up by id after
the increment mutation yields exactly the incremented row. -/
theorem find_updStock (store : List Product) (p : Product)
    (hmem : p ∈ store) (hnd : (store.map Product.id).Nodup) :
    (store.map (updStock p.id)).find? (fun q => q.id = p.id) = some (updStock p.id p) := by
  induction store with
  | nil => cases hmem
  | cons q rest ih =>
    simp only [List.map_cons, List.nodup_cons] at hnd
    rcases List.mem_cons.mp hmem with hpq | hrest
    · subst hpq
      simp [List.find?_cons, updStock_id]
    · by_cases hqp : q.id = p.id
      · exfalso
        exact hnd.1 (hqp ▸ List.mem_map_of_mem Product.id hrest)
      · have : ((fun r => r.id = p.id) (updStock p.id q) : Bool) = false := by
          simp [updStock_id, hqp]
        simp only [List.map_cons, List.find?_cons, this]
        exact ih hrest hnd.2

/-- C2: for a single accepted scan whose code matches an existing product of
the user, exactly one remote increment-stock mutation is issued (also when the
update fails at the transport level), and on success the pipeline reports
`stockAfter = stockBefore + 1` exactly, with `stockBefore` the stock returned
by the lookup, and the stored stock of that product equals `stockBefore + 1`. -/
theorem c2_single_scan_increment (store : List Product) (code : String)
    (p : Product) (uOk : Bool)
    (hnd : (store.map Product.id).Nodup)
    (hlk : findProductByBarcode store code = some p) :
    (handleBarcodeScanned true uOk store code).incrementCalls = 1 ∧
    (uOk = true →
      (handleBarcodeScanned true uOk store code).outcome =
        .updated p.name p.stock_quantity (p.stock_quantity + 1) ∧
      ((handleBarcodeScanned true uOk store code).store.find?
          (fun q => q.id = p.id)).map Product.stock_quantity =
        some (p.stock_quantity + 1)) := by
  have hmem : p ∈ store := List.mem_of_find?_eq_some hlk
  have hfind := find_updStock store p hmem hnd
  cases uOk with
  | false =>
    refine ⟨?_, by intro h; cases h⟩
    simp [handleBarcodeScanned, hlk]
  | true =>
    have hfind2 : (incrementProductStock store p.id).2 = some (updStock p.id p) := by
      simpa [incrementProductStock] using hfind
    have hstore : (incrementProductStock store p.id).1 = store.map (updStock p.id) := rfl
    constructor
    · simp [handleBarcodeScanned, hlk, hfind2]
    · intro _
      constructor
      · simp only [handleBarcodeScanned, Bool.true_eq_false, if_false, hlk, hfind2,
          updStock_self]
        by_cases hname : p.name = "" <;> simp [hname]
      · simp [handleBarcodeScanned, hlk, hfind2, hstore, hfind, updStock_self]

/-- Witness for C2 on a concrete one-product store. -/
theorem c2_single_scan_increment_witness :
    (handleBarcodeScanned true true
        [⟨"p1", "Cafe", "7701234567891", 4, none, 10⟩] "7701234567891").incrementCalls = 1 ∧
    (true = true →
      (handleBarcodeScanned true true
          [⟨"p1", "Cafe", "7701234567891", 4, none, 10⟩] "7701234567891").outcome =
        .updated "Cafe" 4 5 ∧
      ((handleBarcodeScanned true true
          [⟨"p1", "Cafe", "7701234567891", 4, none, 10⟩] "7701234567891").store.find?
          (fun q => q.id = "p1")).map Product.stock_quantity = some 5) :=
  c2_single_scan_increment
    [⟨"p1", "Cafe", "7701234567891", 4, none, 10⟩] "7701234567891"
    ⟨"p1", "Cafe", "7701234567891", 4, none, 10⟩ true (by decide) (by decide)

/-- Modelled from the spec: `SCAN_COOLDOWN_MS` is imported by `unnamed/part_005`
from `@/constants/ui`, a file absent from the sources; the spec says the
cooldown window is "on the order of ~1 second", so the constant is taken to be
1000 milliseconds, matching the 1000 ms literal used by the sibling
`BarcodeScannerModal.tsx` variant. -/
def SCAN_COOLDOWN_MS : Nat := 1000

/-- State of the ZXing scanner modal (`unnamed/part_005`): the ref flags
`scanLockRef`, `isProcessingRef`, `lastScannedRef`, `lastScanTimeRef`, whether
the scanner controls are running (`scannerControlsRef` live and not stopped),
the code whose resolution is in flight, and the scheduling time of the pending
1-second auto-resume timer of the success branch. -/
structure ZState where
  scanLock : Bool
  isProcessing : Bool
  lastScanned : Option String
  lastScanTime : Nat
  active : Bool
  pending : Option String
  timerAt : Option Nat
deriving DecidableEq, Repr

/-- Initial state of the ZXing scanner modal after mount. -/
def initZ : ZState := ⟨false, false, none, 0, true, none, none⟩

/-- The decode callback guard of `unnamed/part_005` `startScanner`
(lines 194-216): a decode result is accepted, issuing a resolution call via
`handleBarcodeScanned`, exactly when the scan lock is free, no scan is being
processed, and the result is not a duplicate (same code as the previously
accepted scan within the cooldown window); acceptance records the code and
time and takes the lock.  Decode callbacks are only delivered while the
scanner controls are running.  Returns the new state and whether the decode
was accepted. -/
def onDecode (s : ZState) (code : String) (now : Nat) : ZState × Bool :=
  if s.active = false then (s, false)
  else if s.scanLock = false ∧ s.isProcessing = false ∧
      ¬(s.lastScanned = some code ∧ now - s.lastScanTime < SCAN_COOLDOWN_MS) then
    ({ s with scanLock := true, isProcessing := true, lastScanned := some code,
              lastScanTime := now, pending := some code }, true)
  else (s, false)

/-- Outcomes of the in-flight resolution in `unnamed/part_005`
`handleBarcodeScanned` (lines 304-379): the lookup fails, the product is
found and the increment succeeds, the product is found and the increment
fails, or the product is not found. -/
inductive Outcome where
  | lookupError
  | foundOk
  | foundUpdateError
  | notFound
deriving DecidableEq, Repr

/-- Completion of the in-flight resolution in `unnamed/part_005`
`handleBarcodeScanned` at time `now`.  Lookup and update failures run
`handleError` (lines 71-82), which clears the processing flag and the scan
lock but keeps the last-code memo, and the failing branches re-activate
scanning via `setIsScannerActive(true)`.  Success keeps the lock and schedules
the 1-second auto-resume timer.  Not-found clears the flags and the memo and
stops the scanner before handing off to `onProductNotFound`
(lines 350-361). -/
def onResolve (s : ZState) (o : Outcome) (now : Nat) : ZState :=
  match s.pending with
  | none => s
  | some _ =>
    match o with
    | .lookupError =>
      { s with scanLock := false, isProcessing := false, pending := none, active := true }
    | .foundUpdateError =>
      { s with scanLock := false, isProcessing := false, pending := none, active := true }
    | .foundOk =>
      { s with pending := none, timerAt := some now }
    | .notFound =>
      { s with scanLock := false, isProcessing := false, lastScanned := none,
               pending := none, active := false }

/-- The success-branch auto-resume timer of `unnamed/part_005` (lines 341-348):
1000 ms after a successful resolution it clears the notification, the
last-code memo, the lock and the processing flag, and re-activates the
scanner. -/
def onTimer (s : ZState) (now : Nat) : ZState :=
  match s.timerAt with
  | none => s
  | some ts =>
    if ts + 1000 ≤ now then
      { s with scanLock := false, isProcessing := false, lastScanned := none,
               active := true, timerAt := none }
    else s

/-- Events delivered to the ZXing scanner modal: a decode callback, completion
of the in-flight resolution, and the auto-resume timer firing. -/
inductive ZEv where
  | decode (code : String) (t : Nat)
  | resolve (o : Outcome) (t : Nat)
  | timer (t : Nat)
deriving DecidableEq, Repr

/-- Time at which an event occurs. -/
def ZEv.time : ZEv → Nat
  | .decode _ t => t
  | .resolve _ t => t
  | .timer t => t

/-- One step of the ZXing scanner modal. -/
def zstep (s : ZState) (e : ZEv) : ZState :=
  match e with
  | .decode c t => (onDecode s c t).1
  | .resolve o t => onResolve s o t
  | .timer t => onTimer s t

/-- Run the ZXing scanner modal over a list of events. -/
def zrun (s : ZState) (es : List ZEv) : ZState :=
  es.foldl zstep s

/-- Number of decode events accepted (each acceptance issues exactly one
resolution call, the lookup in `handleBarcodeScanned`). -/
def acceptCount (s : ZState) : List ZEv → Nat
  | [] => 0
  | e :: es =>
    match e with
    | .decode c t =>
      (if (onDecode s c t).2 then 1 else 0) + acceptCount (onDecode s c t).1 es
    | .resolve o t => acceptCount (onResolve s o t) es
    | .timer t => acceptCount (onTimer s t) es

/-- Whether an event, if it is a decode callback, carries the given code. -/
def sameCodeEv (code : String) : ZEv → Bool
  | .decode c _ => c = code
  | _ => true

/-- Events considered by claim C1: they occur inside the cooldown window that
opens with the first accepted scan at time `t0`, and every decode callback
among them carries the same code. -/
def inWindow (code : String) (t0 : Nat) (e : ZEv) : Prop :=
  t0 ≤ e.time ∧ e.time < t0 + SCAN_COOLDOWN_MS ∧ sameCodeEv code e = true

instance (code : String) (t0 : Nat) (e : ZEv) : Decidable (inWindow code t0 e) := by
  unfold inWindow; infer_instance

/-- Invariant maintained after the first accepted scan of `code` at `t0`,
while all further events stay inside the cooldown window: either the scanner
has been stopped (not-found handoff), or the last-code memo still records
`code` at `t0`; and any scheduled auto-resume timer was scheduled no earlier
than `t0`. -/
def c1Inv (code : String) (t0 : Nat) (s : ZState) : Prop :=
  ((s.active = false ∧ s.pending = none) ∨
    (s.lastScanned = some code ∧ s.lastScanTime = t0)) ∧
  ∀ ts, s.timerAt = some ts → t0 ≤ ts

theorem onDecode_sameCode_rejected (code : String) (t0 t : Nat) (s : ZState)
    (hinv : c1Inv code t0 s) (ht : t < t0 + SCAN_COOLDOWN_MS) :
    onDecode s code t = (s, false) := by
  rcases hinv.1 with ⟨hact, _⟩ | ⟨hmemo, htime⟩
  · simp [onDecode, hact]
  · have hdup : s.lastScanned = some code ∧ t - s.lastScanTime < SCAN_COOLDOWN_MS :=
      ⟨hmemo, by rw [htime]; unfold SCAN_COOLDOWN_MS at ht ⊢; omega⟩
    unfold onDecode
    by_cases hA : s.active = false
    · simp [hA]
    · simp [hA, hdup.1, hdup.2]

theorem c1Inv_step (code : String) (t0 : Nat) (s : ZState) (e : ZEv)
    (hinv : c1Inv code t0 s) (he : inWindow code t0 e) :
    c1Inv code t0 (zstep s e) := by
  obtain ⟨ht0, htlt, hcode⟩ := he
  cases e with
  | decode c t =>
    have hc : c = code := of_decide_eq_true hcode
    subst hc
    have hrej := onDecode_sameCode_rejected c t0 t s hinv (by simpa [ZEv.time] using htlt)
    simpa [zstep, hrej] using hinv
  | resolve o t =>
    rcases hps : s.pending with _ | c0
    · simpa [zstep, onResolve, hps] using hinv
    · rcases hinv.1 with ⟨_, hpn⟩ | ⟨hmemo, htime⟩
      · rw [hps] at hpn; cases hpn
      · cases o with
        | lookupError =>
          refine ⟨Or.inr ⟨?_, ?_⟩, ?_⟩
          · simpa [zstep, onResolve, hps] using hmemo
          · simpa [zstep, onResolve, hps] using htime
          · intro ts hts
            exact hinv.2 ts (by simpa [zstep, onResolve, hps] using hts)
        | foundUpdateError =>
          refine ⟨Or.inr ⟨?_, ?_⟩, ?_⟩
          · simpa [zstep, onResolve, hps] using hmemo
          · simpa [zstep, onResolve, hps] using htime
          · intro ts hts
            exact hinv.2 ts (by simpa [zstep, onResolve, hps] using hts)
        | foundOk =>
          refine ⟨Or.inr ⟨?_, ?_⟩, ?_⟩
          · simpa [zstep, onResolve, hps] using hmemo
          · simpa [zstep, onResolve, hps] using htime
          · intro ts hts
            have : t = ts := by simpa [zstep, onResolve, hps] using hts
            subst this
            simpa [ZEv.time] using ht0
        | notFound =>
          refine ⟨Or.inl ⟨?_, ?_⟩, ?_⟩
          · simp [zstep, onResolve, hps]
          · simp [zstep, onResolve, hps]
          · intro ts hts
            exact hinv.2 ts (by simpa [zstep, onResolve, hps] using hts)
  | timer t =>
    rcases hts : s.timerAt with _ | ts
    · simpa [zstep, onTimer, hts] using hinv
    · have hge : t0 ≤ ts := hinv.2 ts hts
      have hlt : t < t0 + SCAN_COOLDOWN_MS := by simpa [ZEv.time] using htlt
      have hnofire : ¬ (ts + 1000 ≤ t) := by
        unfold SCAN_COOLDOWN_MS at hlt; omega
      simpa [zstep, onTimer, hts, hnofire] using hinv

theorem acceptCount_zero (code : String) (t0 : Nat) (s : ZState) (es : List ZEv)
    (hinv : c1Inv code t0 s) (hscope : ∀ e ∈ es, inWindow code t0 e) :
    acceptCount s es = 0 := by
  induction es generalizing s with
  | nil => rfl
  | cons e es ih =>
    have he := hscope e (List.mem_cons_self e es)
    have hstep := c1Inv_step code t0 s e hinv he
    have htail : ∀ e' ∈ es, inWindow code t0 e' :=
      fun e' h' => hscope e' (List.mem_cons_of_mem e h')
    cases e with
    | decode c t =>
      have hc : c = code := of_decide_eq_true he.2.2
      subst hc
      have hrej := onDecode_sameCode_rejected c t0 t s hinv
        (by simpa [ZEv.time] using he.2.1)
      simp only [acceptCount, hrej]
      simpa using ih s hinv htail
    | resolve o t =>
      simp only [acceptCount]
      exact ih _ (by simpa [zstep] using hstep) htail
    | timer t =>
      simp only [acceptCount]
      exact ih _ (by simpa [zstep] using hstep) htail

/-- C1 (amended): for every sequence of decode callbacks carrying the same
code, all arriving within the cooldown window of the first accepted scan,
the decode event filter accepts exactly one of them — exactly one resolution
(lookup) call is issued for that presentation of the code.  In the unlocked,
non-processing, active state a scan is suppressed exactly when its code
equals the previously accepted code and the elapsed time since that
acceptance is below the cooldown threshold; while the scan lock or the
processing flag is held, or the scanner is stopped, every scan is suppressed
regardless of its code. -/
theorem c1_duplicate_filter_amended :
    (∀ (code : String) (t0 : Nat) (rest : List ZEv),
      (∀ e ∈ rest, inWindow code t0 e) →
      acceptCount initZ (ZEv.decode code t0 :: rest) = 1) ∧
    (∀ (s : ZState) (code : String) (t : Nat),
      s.active = true → s.scanLock = false → s.isProcessing = false →
      ((onDecode s code t).2 = false ↔
        (s.lastScanned = some code ∧ t - s.lastScanTime < SCAN_COOLDOWN_MS))) := by
  constructor
  · intro code t0 rest hscope
    have hacc : onDecode initZ code t0 =
        (⟨true, true, some code, t0, true, some code, none⟩, true) := by
      simp [onDecode, initZ]
    have hinv : c1Inv code t0 ⟨true, true, some code, t0, true, some code, none⟩ := by
      refine ⟨Or.inr ⟨rfl, rfl⟩, ?_⟩
      intro ts hts; cases hts
    simp only [acceptCount, hacc]
    rw [acceptCount_zero code t0 _ rest hinv hscope]
    simp
  · intro s code t hact hlock hproc
    unfold onDecode
    simp only [hact, hlock, hproc]
    by_cases hdup : s.lastScanned = some code ∧ t - s.lastScanTime < SCAN_COOLDOWN_MS
    · simp [hdup.1, hdup.2]
    · simp only [Bool.true_eq_false, if_false]
      simp [hdup]

/-- Witness for C1: three decode callbacks with the same code at 5, 300 and
900 ms produce exactly one resolution call. -/
theorem c1_duplicate_filter_witness :
    acceptCount initZ [ZEv.decode "7701234567891" 5, ZEv.decode "7701234567891" 300,
      ZEv.decode "7701234567891" 900] = 1 :=
  c1_duplicate_filter_amended.1 "7701234567891" 5
    [ZEv.decode "7701234567891" 300, ZEv.decode "7701234567891" 900] (by decide)

/-- Counterexample for C1 as stated: the scan of code B, arriving 5 ms after
the accepted scan of code A, is suppressed although its code differs from the
previously accepted code — suppression is caused by the scan lock, not by the
duplicate rule, so "a scan is suppressed only when its code equals the
previously accepted code" is false of the code. -/
theorem c1_suppression_counterexample :
    (onDecode initZ "A" 5).2 = true ∧
    (onDecode (onDecode initZ "A" 5).1 "B" 10).2 = false ∧
    ((onDecode initZ "A" 5).1.lastScanned = some "B" → False) := by decide

/-- Invariant of the ZXing scanner modal: whenever a resolution is in flight
the scan lock is held, and whenever the auto-resume timer is scheduled no
resolution is in flight and the lock is still held. -/
def c3Inv (s : ZState) : Prop :=
  (s.pending.isSome → s.scanLock = true) ∧
  (s.timerAt.isSome → s.pending = none ∧ s.scanLock = true)

theorem c3Inv_init : c3Inv initZ := by
  constructor <;> intro h <;> simp [initZ] at h

theorem c3Inv_step (s : ZState) (e : ZEv) (hinv : c3Inv s) : c3Inv (zstep s e) := by
  cases e with
  | decode c t =>
    show c3Inv (onDecode s c t).1
    unfold onDecode
    by_cases hA : s.active = false
    · rw [if_pos hA]
      exact hinv
    · rw [if_neg hA]
      by_cases hcond : s.scanLock = false ∧ s.isProcessing = false ∧
        ¬(s.lastScanned = some c ∧ t - s.lastScanTime < SCAN_COOLDOWN_MS)
      · have htnone : s.timerAt = none := by
          rcases hta : s.timerAt with _ | ts
          · rfl
          · have := (hinv.2 (by simp [hta])).2
            rw [hcond.1] at this
            cases this
        rw [if_pos hcond]
        refine ⟨fun _ => rfl, ?_⟩
        intro h
        simp [htnone] at h
      · rw [if_neg hcond]
        exact hinv
  | resolve o t =>
    show c3Inv (onResolve s o t)
    unfold onResolve
    rcases hps : s.pending with _ | c0
    · simpa using hinv
    · have hlock : s.scanLock = true := hinv.1 (by simp [hps])
      have htnone : s.timerAt.isSome → s.pending = none := fun h => (hinv.2 h).1
      cases o with
      | lookupError => exact ⟨by intro h; simp at h, by
          intro h
          simp only at h
          have := htnone (by simpa using h)
          rw [hps] at this; cases this⟩
      | foundUpdateError => exact ⟨by intro h; simp at h, by
          intro h
          simp only at h
          have := htnone (by simpa using h)
          rw [hps] at this; cases this⟩
      | foundOk => exact ⟨by intro h; simp at h, fun _ => ⟨rfl, hlock⟩⟩
      | notFound => exact ⟨by intro h; simp at h, by
          intro h
          simp only at h
          have := htnone (by simpa using h)
          rw [hps] at this; cases this⟩
  | timer t =>
    show c3Inv (onTimer s t)
    unfold onTimer
    rcases hta : s.timerAt with _ | ts
    · simpa using hinv
    · by_cases hfire : ts + 1000 ≤ t
      · have hpn : s.pending = none := (hinv.2 (by simp [hta])).1
        simp only [hfire, if_true]
        exact ⟨by intro h; simp only at h; rw [hpn] at h; simp at h,
               by intro h; simp at h⟩
      · simpa [hfire] using hinv

theorem c3Inv_zrun (es : List ZEv) : c3Inv (zrun initZ es) := by
  suffices h : ∀ s, c3Inv s → c3Inv (zrun s es) from h initZ c3Inv_init
  induction es with
  | nil => intro s hs; exact hs
  | cons e es ih =>
    intro s hs
    exact ih (zstep s e) (c3Inv_step s e hs)

/-- C3 (amended): at most one scan is in flight at any time — in every state
the scanner modal can reach from its initial state, while a resolution is in
flight (a scan is Locked/Processing) every decode callback is rejected, so no
second resolution call begins before the prior one resolves.  (After the
prior resolution resolves, a scan of a different code may be accepted at
once; only a repeat of the same code is additionally held to the cooldown
window.) -/
theorem c3_single_inflight_amended (es : List ZEv) (c code : String) (t : Nat)
    (hp : (zrun initZ es).pending = some c) :
    (onDecode (zrun initZ es) code t).2 = false := by
  have hinv := c3Inv_zrun es
  have hlock : (zrun initZ es).scanLock = true := hinv.1 (by simp [hp])
  unfold onDecode
  by_cases hA : (zrun initZ es).active = false
  · simp [hA]
  · simp [hA, hlock]

/-- Witness for C3: while the scan of code A accepted at 0 ms is still in
flight, the decode callback for code B at 700 ms is rejected. -/
theorem c3_single_inflight_witness :
    (onDecode (zrun initZ [ZEv.decode "A" 0]) "B" 700).2 = false :=
  c3_single_inflight_amended [ZEv.decode "A" 0] "A" "B" 700 (by decide)

/-- Counterexample for C3 as stated: the scan of code A is accepted at 0 ms,
its lookup fails at 50 ms, and the scan of code B at 100 ms is accepted — a
new resolution call begins 100 ms after the previous acceptance, before the
~1000 ms cooldown window has elapsed, so "no new lookup starts until the
prior one resolves and the cooldown window elapses" is false of the code. -/
theorem c3_cooldown_counterexample :
    (onDecode (zstep (zstep initZ (ZEv.decode "A" 0))
        (ZEv.resolve Outcome.lookupError 50)) "B" 100).2 = true ∧
    (100 : Nat) - 0 < SCAN_COOLDOWN_MS := by decide

/-- State of the html5-qrcode scanner modal (`BarcodeScannerModal.tsx`): the
refs `isProcessingRef`, `lastScanTimeRef` and `scanCountRef`, whether the
awaited `handleBarcodeScanned` call is still running, and the scheduling time
of the pending 800 ms re-arm timer (lines 77-81). -/
structure MState where
  isProcessingRef : Bool
  lastScanTime : Nat
  scanCount : Nat
  pendingResolve : Bool
  timerAt : Option Nat
deriving DecidableEq, Repr

/-- Initial state of the html5-qrcode scanner modal after mount. -/
def initM : MState := ⟨false, 0, 0, false, none⟩

/-- The `qrCodeSuccessCallback` guard of `BarcodeScannerModal.tsx`
(lines 55-75): a decode result is rejected while a previous scan is being
processed, and rejected whenever less than 1000 ms have passed since the last
accepted scan, regardless of the decoded code; otherwise it is accepted,
recording the time, taking the processing flag and starting the resolution. -/
def mDecode (s : MState) (now : Nat) : MState × Bool :=
  if s.isProcessingRef = true then (s, false)
  else if now - s.lastScanTime < 1000 then (s, false)
  else ({ s with lastScanTime := now, isProcessingRef := true,
                 scanCount := s.scanCount + 1, pendingResolve := true }, true)

/-- Completion of the awaited `handleBarcodeScanned` call in
`BarcodeScannerModal.tsx` at time `now`: whatever the outcome (success,
error, or product not found — outcomes only set the message state), the
callback then schedules the 800 ms timer of lines 77-81. -/
def mResolve (s : MState) (_o : Outcome) (now : Nat) : MState :=
  if s.pendingResolve = true then
    { s with pendingResolve := false, timerAt := some now }
  else s

/-- The 800 ms re-arm timer of `BarcodeScannerModal.tsx` (lines 77-81): it
clears the processing flag (and the message and displayed code), re-arming
the decode filter. -/
def mTimer (s : MState) (now : Nat) : MState :=
  match s.timerAt with
  | none => s
  | some ts =>
    if ts + 800 ≤ now then { s with isProcessingRef := false, timerAt := none }
    else s

/-- C4 (amended): in the html5-qrcode modal every resolution outcome —
success, not-found, lookup failure or update failure — is followed, 800 ms
after the resolution completes and with no user intervention, by the
processing flag being cleared, after which any scan past the cooldown window
is accepted again: the filter re-arms and never remains stuck.  In the ZXing
modal, lookup and update failures clear the lock at once and keep the scanner
active, and a successful update re-arms through the fixed 1000 ms timer; but
its not-found branch stops the scanner and hands off instead of re-arming. -/
theorem c4_rearm_amended :
    (∀ (s : MState) (o : Outcome) (t1 t2 t3 : Nat),
      s.pendingResolve = true → t1 + 800 ≤ t2 → s.lastScanTime + 1000 ≤ t3 →
      (mTimer (mResolve s o t1) t2).isProcessingRef = false ∧
      (mDecode (mTimer (mResolve s o t1) t2) t3).2 = true) ∧
    (∀ (s : ZState) (c : String) (t : Nat), s.pending = some c →
      ((onResolve s Outcome.lookupError t).scanLock = false ∧
        (onResolve s Outcome.lookupError t).isProcessing = false ∧
        (onResolve s Outcome.lookupError t).active = true) ∧
      ((onResolve s Outcome.foundUpdateError t).scanLock = false ∧
        (onResolve s Outcome.foundUpdateError t).isProcessing = false ∧
        (onResolve s Outcome.foundUpdateError t).active = true)) ∧
    (∀ (s : ZState) (c : String) (t t2 : Nat), s.pending = some c → t + 1000 ≤ t2 →
      (onTimer (onResolve s Outcome.foundOk t) t2).scanLock = false ∧
      (onTimer (onResolve s Outcome.foundOk t) t2).isProcessing = false ∧
      (onTimer (onResolve s Outcome.foundOk t) t2).active = true) := by
  refine ⟨?_, ?_, ?_⟩
  · intro s o t1 t2 t3 hp ht hcool
    have hres : mResolve s o t1 = { s with pendingResolve := false, timerAt := some t1 } := by
      simp [mResolve, hp]
    have htmr : mTimer (mResolve s o t1) t2 =
        { s with pendingResolve := false, isProcessingRef := false, timerAt := none } := by
      rw [hres]; simp [mTimer, ht]
    rw [htmr]
    refine ⟨rfl, ?_⟩
    have : ¬ (t3 - s.lastScanTime < 1000) := by omega
    simp [mDecode, this]
  · intro s c t hp
    refine ⟨⟨?_, ?_, ?_⟩, ⟨?_, ?_, ?_⟩⟩ <;> simp [onResolve, hp]
  · intro s c t t2 hp ht
    have hres : onResolve s Outcome.foundOk t =
        { s with pending := none, timerAt := some t } := by
      simp [onResolve, hp]
    rw [hres]
    refine ⟨?_, ?_, ?_⟩ <;> simp [onTimer, ht]

/-- Witness for C4: a concrete processing state resolves at 100 ms, the 800 ms
timer fires at 900 ms, and a scan at 1300 ms is accepted again. -/
theorem c4_rearm_witness :
    (mTimer (mResolve ⟨true, 60, 1, true, none⟩ Outcome.notFound 100) 900).isProcessingRef
      = false ∧
    (mDecode (mTimer (mResolve ⟨true, 60, 1, true, none⟩ Outcome.notFound 100) 900) 1300).2
      = true :=
  c4_rearm_amended.1 ⟨true, 60, 1, true, none⟩ Outcome.notFound 100 900 1300
    rfl (by decide) (by decide)

/-- Counterexample for C4 as stated: in the ZXing modal (`unnamed/part_005`,
lines 350-361), after the not-found resolution of the scan accepted at 0 ms
the scanner is stopped, no timer is scheduled, and a scan 5000 ms later is
still rejected — after this outcome the filter does not transition back to
accepting scans after a fixed delay. -/
theorem c4_notfound_counterexample :
    (onResolve (zstep initZ (ZEv.decode "A" 0)) Outcome.notFound 50).active = false ∧
    (onResolve (zstep initZ (ZEv.decode "A" 0)) Outcome.notFound 50).timerAt = none ∧
    (onDecode (onResolve (zstep initZ (ZEv.decode "A" 0)) Outcome.notFound 50) "X" 5000).2
      = false ∧
    onTimer (onResolve (zstep initZ (ZEv.decode "A" 0)) Outcome.notFound 50) 5000 =
      onResolve (zstep initZ (ZEv.decode "A" 0)) Outcome.notFound 50 := by decide

/-- The resolution outcome and remote side effects of `unnamed/part_005`
`handleBarcodeScanned` (lines 304-361), for one accepted scan: the outcome,
the number of increment-stock mutations issued, and the code passed to
`onProductNotFound` when the product is absent. -/
def resolveScan (store : List Product) (lookupOk updateOk : Bool) (code : String) :
    Outcome × Nat × Option String :=
  if lookupOk = false then (.lookupError, 0, none)
  else
    match findProductByBarcode store code with
    | some _ => if updateOk = false then (.foundUpdateError, 1, none) else (.foundOk, 1, none)
    | none => (.notFound, 0, some code)

/-- C5 (amended): for every accepted scan whose code is absent from the
products of the user and whose lookup succeeds, the pipeline issues no stock
mutation, resolves to the not-found outcome, leaves the store untouched, and
invokes `onProductNotFound` with exactly the decoded code.  The ZXing modal
then stops the scanner and does not re-arm; the html5-qrcode modal instead
re-arms scanning silently 800 ms after the resolution, with no user
intervention. -/
theorem c5_not_found_amended :
    (∀ (store : List Product) (code : String) (uOk : Bool),
      findProductByBarcode store code = none →
      (handleBarcodeScanned true uOk store code).outcome = ScanOutcome.notFoundP code ∧
      (handleBarcodeScanned true uOk store code).incrementCalls = 0 ∧
      (handleBarcodeScanned true uOk store code).notFoundCb = some code ∧
      (handleBarcodeScanned true uOk store code).store = store) ∧
    (∀ (store : List Product) (code : String) (uOk : Bool) (s : ZState) (t : Nat),
      findProductByBarcode store code = none → s.pending = some code →
      (resolveScan store true uOk code).1 = Outcome.notFound ∧
      (resolveScan store true uOk code).2.1 = 0 ∧
      (resolveScan store true uOk code).2.2 = some code ∧
      (onResolve s Outcome.notFound t).active = false ∧
      (onResolve s Outcome.notFound t).timerAt = s.timerAt) ∧
    (∀ (s : MState) (t1 t2 t3 : Nat),
      s.pendingResolve = true → t1 + 800 ≤ t2 → s.lastScanTime + 1000 ≤ t3 →
      (mDecode (mTimer (mResolve s Outcome.notFound t1) t2) t3).2 = true) := by
  refine ⟨?_, ?_, ?_⟩
  · intro store code uOk hnf
    refine ⟨?_, ?_, ?_, ?_⟩ <;> simp [handleBarcodeScanned, hnf]
  · intro store code uOk s t hnf hp
    refine ⟨?_, ?_, ?_, ?_, ?_⟩ <;> simp [resolveScan, hnf, onResolve, hp]
  · intro s t1 t2 t3 hp ht hcool
    have hres : mResolve s Outcome.notFound t1 =
        { s with pendingResolve := false, timerAt := some t1 } := by
      simp [mResolve, hp]
    have htmr : mTimer (mResolve s Outcome.notFound t1) t2 =
        { s with pendingResolve := false, isProcessingRef := false, timerAt := none } := by
      rw [hres]; simp [mTimer, ht]
    rw [htmr]
    have : ¬ (t3 - s.lastScanTime < 1000) := by omega
    simp [mDecode, this]

/-- Witness for C5 at the concrete code of the spec scenario. -/
theorem c5_not_found_amended_witness :
    (handleBarcodeScanned true true [⟨"p1", "Cafe", "123", 4, none, 10⟩]
        "7701234567890").outcome = ScanOutcome.notFoundP "7701234567890" ∧
    (handleBarcodeScanned true true [⟨"p1", "Cafe", "123", 4, none, 10⟩]
        "7701234567890").incrementCalls = 0 ∧
    (handleBarcodeScanned true true [⟨"p1", "Cafe", "123", 4, none, 10⟩]
        "7701234567890").notFoundCb = some "7701234567890" ∧
    (handleBarcodeScanned true true [⟨"p1", "Cafe", "123", 4, none, 10⟩]
        "7701234567890").store = [⟨"p1", "Cafe", "123", 4, none, 10⟩] :=
  c5_not_found_amended.1 [⟨"p1", "Cafe", "123", 4, none, 10⟩] "7701234567890" true
    (by decide)

/-- Counterexample for C5 as stated: in the html5-qrcode modal
(`BarcodeScannerModal.tsx`, lines 169-180), a scan accepted at 1500 ms whose
code is absent resolves to not-found with `onProductNotFound` invoked, yet
the scanner keeps running and the 800 ms timeout of lines 77-81 clears the
processing flag, so a scan at 2600 ms is accepted again with no user
intervention — scanning does re-arm silently in the background after
NotFound in that cited variant. -/
theorem c5_silent_rearm_counterexample :
    (mDecode initM 1500).2 = true ∧
    (handleBarcodeScanned true true [] "7701234567890").outcome =
      ScanOutcome.notFoundP "7701234567890" ∧
    (handleBarcodeScanned true true [] "7701234567890").notFoundCb =
      some "7701234567890" ∧
    (handleBarcodeScanned true true [] "7701234567890").incrementCalls = 0 ∧
    (mDecode (mTimer (mResolve (mDecode initM 1500).1 Outcome.notFound 1600) 2400)
        2600).2 = true := by decide

/-- A video input device as enumerated by the browser. -/
structure MediaDevice where
  deviceId : String
  label : String
deriving DecidableEq, Repr

/-- Whether `pat` occurs as a contiguous run inside a character list. -/
def infixOf (pat : List Char) : List Char → Bool
  | [] => pat.isEmpty
  | c :: rest => pat.isPrefixOf (c :: rest) || infixOf pat rest

/-- Substring test, as JS `String.prototype.includes`. -/
def strContains (s pat : String) : Bool :=
  infixOf pat.data s.data

/-- ASCII lowercasing, as JS `String.prototype.toLowerCase` on the ASCII
device labels involved. -/
def strToLower (s : String) : String :=
  ⟨s.data.map Char.toLower⟩

/-- Prefix test, as JS `String.prototype.startsWith`. -/
def strIsPrefixOf (p s : String) : Bool :=
  p.data.isPrefixOf s.data

/-- Whitespace trimming, as JS `String.prototype.trim`. -/
def strTrim (s : String) : String :=
  ⟨((s.data.dropWhile Char.isWhitespace).reverse.dropWhile Char.isWhitespace).reverse⟩

/-- The rear-camera label test of `selectBestCamera` (`unnamed/part_005`
lines 101-108): the lowercased label contains one of the rear/back
orientation hints. -/
def hasRearHint (label : String) : Bool :=
  let l := strToLower label
  strContains l "back" || strContains l "rear" || strContains l "trasera" ||
    strContains l "environment" || strContains l "facing back"

/-- Camera selection of `unnamed/part_005` (`selectBestCamera`,
lines 92-128): with no devices report none (the caller then raises the
"no camera available" error); otherwise prefer the first device whose label
exposes a rear/back orientation hint; otherwise use the last-listed device
when more than one exists; otherwise the first. -/
def selectBestCamera (devices : List MediaDevice) : Option String :=
  match devices with
  | [] => none
  | d0 :: rest =>
    match (d0 :: rest).find? (fun d => hasRearHint d.label) with
    | some d => some d.deviceId
    | none =>
      if 1 < (d0 :: rest).length then
        some (((d0 :: rest).getLast (List.cons_ne_nil d0 rest)).deviceId)
      else some d0.deviceId

/-- C6: camera selection returns a rear-facing device whenever some label
exposes a rear/back hint (the first such device), otherwise the last-listed
device when more than one device exists, otherwise the single device; an
empty device list yields none, which the caller reports as "no camera
available". -/
theorem c6_camera_selection :
    (∀ (devices : List MediaDevice) (d : MediaDevice),
      devices.find? (fun d => hasRearHint d.label) = some d →
      selectBestCamera devices = some d.deviceId ∧ hasRearHint d.label = true) ∧
    (∀ (d0 d1 : MediaDevice) (rest : List MediaDevice),
      (d0 :: d1 :: rest).find? (fun d => hasRearHint d.label) = none →
      selectBestCamera (d0 :: d1 :: rest) =
        some (((d0 :: d1 :: rest).getLast (List.cons_ne_nil d0 (d1 :: rest))).deviceId)) ∧
    (∀ d0 : MediaDevice, hasRearHint d0.label = false →
      selectBestCamera [d0] = some d0.deviceId) ∧
    selectBestCamera ([] : List MediaDevice) = none := by
  refine ⟨?_, ?_, ?_, rfl⟩
  · intro devices d h
    constructor
    · cases devices with
      | nil => cases h
      | cons d0 rest => simp [selectBestCamera, h]
    · simpa using List.find?_some h
  · intro d0 d1 rest h
    simp [selectBestCamera, h]
  · intro d0 h
    simp [selectBestCamera, List.find?_cons, h]

/-- Witness for C6 on a two-device list whose second label is rear-facing. -/
theorem c6_camera_selection_witness :
    selectBestCamera [⟨"cam0", "Front Camera"⟩, ⟨"cam1", "Back Camera"⟩] = some "cam1" ∧
    hasRearHint "Back Camera" = true :=
  c6_camera_selection.1 [⟨"cam0", "Front Camera"⟩, ⟨"cam1", "Back Camera"⟩]
    ⟨"cam1", "Back Camera"⟩ (by decide)

/-- The cleanup refs of the ZXing scanner modal (`unnamed/part_005`), and a
count of the hardware releases performed by `controls.stop()`. -/
structure ScannerRefs where
  controls : Bool
  codeReader : Bool
  releases : Nat
deriving DecidableEq, Repr

/-- Refs state right after a single successful start. -/
def startedRefs : ScannerRefs := ⟨true, true, 0⟩

/-- The `stopScanner` teardown of `unnamed/part_005` (lines 276-289): when
the controls ref is set, call `controls.stop()` — releasing the camera
hardware — and null both refs; the call is wrapped in try/catch, and when it
throws (`stopThrows`) the catch branch still nulls both refs, so the function
never propagates an exception; when the controls ref is already null the call
is a no-op.  It reads no pipeline state, so it behaves identically during an
in-flight decode. -/
def stopScanner (stopThrows : Bool) (s : ScannerRefs) : ScannerRefs :=
  if s.controls = true then
    if stopThrows = true then ⟨false, false, s.releases + 1⟩
    else ⟨false, false, s.releases + 1⟩
  else s

/-- A sequence of `stopScanner` calls, each possibly hitting a throwing
`controls.stop()`. -/
def stopMany (flags : List Bool) (s : ScannerRefs) : ScannerRefs :=
  flags.foldl (fun t b => stopScanner b t) s

theorem stopScanner_of_stopped (flags : List Bool) (s : ScannerRefs)
    (h : s.controls = false) : stopMany flags s = s := by
  induction flags with
  | nil => rfl
  | cons b rest ih =>
    show stopMany rest (stopScanner b s) = s
    have : stopScanner b s = s := by simp [stopScanner, h]
    rw [this, ih]

/-- C7: `stopScanner` is idempotent and total — after a single start, any
non-empty sequence of stop calls (throwing or not) leaves both refs null and
has released the camera exactly once, on the first call; a second stop after
any stop is a no-op; and the result never depends on whether the underlying
`controls.stop()` throws (the exception is caught). -/
theorem c7_stop_idempotent :
    (∀ flags : List Bool, flags ≠ [] → stopMany flags startedRefs = ⟨false, false, 1⟩) ∧
    (∀ (b1 b2 : Bool) (s : ScannerRefs),
      stopScanner b2 (stopScanner b1 s) = stopScanner b1 s) ∧
    (∀ (b : Bool) (s : ScannerRefs), stopScanner b s = stopScanner true s) := by
  refine ⟨?_, ?_, ?_⟩
  · intro flags hne
    cases flags with
    | nil => cases hne rfl
    | cons b rest =>
      show stopMany rest (stopScanner b startedRefs) = ⟨false, false, 1⟩
      have h1 : stopScanner b startedRefs = ⟨false, false, 1⟩ := by
        cases b <;> rfl
      rw [h1, stopScanner_of_stopped rest _ rfl]
  · intro b1 b2 s
    by_cases h : s.controls = true
    · have h1 : stopScanner b1 s = ⟨false, false, s.releases + 1⟩ := by
        cases b1 <;> simp [stopScanner, h]
      rw [h1]
      simp [stopScanner]
    · have h1 : stopScanner b1 s = s := by simp [stopScanner, h]
      have h2 : stopScanner b2 s = s := by simp [stopScanner, h]
      rw [h1, h2]
  · intro b s
    cases b <;> rfl

/-- Witness for C7: three stop calls, the second hitting a throwing
`controls.stop()`, release the camera exactly once. -/
theorem c7_stop_idempotent_witness :
    stopMany [false, true, false] startedRefs = ⟨false, false, 1⟩ :=
  c7_stop_idempotent.1 [false, true, false] (by decide)

/-- Image MIME types accepted by the upload action (`upload.ts` line 7). -/
def ALLOWED_IMAGE_TYPES : List String := ["image/jpeg", "image/png", "image/webp"]

/-- Maximum upload size in bytes (`upload.ts` line 11). -/
def MAX_FILE_SIZE : Nat := 5 * 1024 * 1024

/-- The fields of the uploaded `File` read by the upload action. -/
structure UploadFile where
  type : String
  size : Nat
deriving DecidableEq, Repr

/-- Result of the upload action; on success it carries the object key the
image was stored under (`uploadToR2` returns the public URL addressing
exactly that key). -/
inductive UploadResult where
  | failure (error : String)
  | success (key : String)
deriving DecidableEq, Repr

/-- The `uploadProductImage` server action (`upload.ts` lines 109-203):
require an authenticated user, a present non-empty file, an allowed MIME
type and a size of at most 5 MB; the dimension check of
`validateImageDimensions` never rejects (the source keeps "OPCION B",
allowing the upload regardless); then store the image under the key
`products/(user id)/(timestamp)-(random).webp`. -/
def uploadProductImage (user : Option String) (file : Option UploadFile)
    (timestamp : Nat) (random : String) : UploadResult :=
  match user with
  | none => .failure "No autenticado"
  | some uid =>
    match file with
    | none => .failure "No se proporcionó archivo"
    | some f =>
      if f.size = 0 then .failure "No se proporcionó archivo"
      else if (ALLOWED_IMAGE_TYPES.contains f.type) = false then
        .failure "Formato no permitido. Solo JPG, PNG y WebP"
      else if MAX_FILE_SIZE < f.size then .failure "Imagen muy grande"
      else .success ("products/" ++ uid ++ "/" ++ toString timestamp ++ "-" ++ random ++ ".webp")

/-- Result of the delete action; `deleted` records the single key passed to
`deleteFromR2`, every other constructor issues no delete. -/
inductive DeleteImageResult where
  | notAuthenticated
  | noUrl
  | permissionDenied
  | deleted (key : String)
deriving DecidableEq, Repr

/-- The `deleteProductImage` server action (`upload.ts` lines 216-262):
require an authenticated user and a non-empty URL; extract the object key
from the URL (`getKeyFromUrl`, defined in `lib/r2/client`, absent from the
sources and therefore kept abstract); delete only when the key starts with
the ownership prefix of the caller, `products/(user id)/`, otherwise answer the
permission error without issuing any delete. -/
def deleteProductImage (user : Option String) (getKeyFromUrl : String → String)
    (imageUrl : String) : DeleteImageResult :=
  match user with
  | none => .notAuthenticated
  | some uid =>
    if imageUrl = "" then .noUrl
    else
      let key := getKeyFromUrl imageUrl
      if (strIsPrefixOf ("products/" ++ uid ++ "/") key) = false then .permissionDenied
      else .deleted key

/-- C8: for an authenticated user, `uploadProductImage` stores the image
under a key of the form `products/(user id)/(timestamp)-(random).webp`, and
`deleteProductImage` deletes the object exactly when the key extracted from
the URL starts with `products/(user id)/`; any other key yields the
permission error and no delete is issued. -/
theorem c8_image_storage_ownership :
    (∀ (uid : String) (f : UploadFile) (ts : Nat) (rnd : String),
      f.size ≠ 0 → ALLOWED_IMAGE_TYPES.contains f.type = true → f.size ≤ MAX_FILE_SIZE →
      uploadProductImage (some uid) (some f) ts rnd =
        .success ("products/" ++ uid ++ "/" ++ toString ts ++ "-" ++ rnd ++ ".webp")) ∧
    (∀ (uid : String) (getKey : String → String) (url : String), url ≠ "" →
      (strIsPrefixOf ("products/" ++ uid ++ "/") (getKey url)) = false →
      deleteProductImage (some uid) getKey url = .permissionDenied) ∧
    (∀ (uid : String) (getKey : String → String) (url : String), url ≠ "" →
      (strIsPrefixOf ("products/" ++ uid ++ "/") (getKey url)) = true →
      deleteProductImage (some uid) getKey url = .deleted (getKey url)) := by
  refine ⟨?_, ?_, ?_⟩
  · intro uid f ts rnd hsz hty hmax
    have hlt : ¬ (MAX_FILE_SIZE < f.size) := by omega
    have hmem : f.type ∈ ALLOWED_IMAGE_TYPES := by simpa using hty
    simp [uploadProductImage, hsz, hmem, hlt]
  · intro uid getKey url hurl hpre
    simp [deleteProductImage, hurl, hpre]
  · intro uid getKey url hurl hpre
    simp [deleteProductImage, hurl, hpre]

/-- Witness for C8: a foreign key `products/u2/...` is refused for user u1
with no delete issued. -/
theorem c8_image_storage_ownership_witness :
    deleteProductImage (some "u1") (fun _ => "products/u2/1700000000000-a1b2c3d.webp")
      "https://images.example.com/products/u2/1700000000000-a1b2c3d.webp" =
      DeleteImageResult.permissionDenied :=
  c8_image_storage_ownership.2.1 "u1" (fun _ => "products/u2/1700000000000-a1b2c3d.webp")
    "https://images.example.com/products/u2/1700000000000-a1b2c3d.webp"
    (by decide) (by decide)

/-- Result of the category delete action. -/
inductive DeleteCategoryResult where
  | notAuthenticated
  | countFailed
  | blocked (error : String)
  | deleted
deriving DecidableEq, Repr

/-- Number of products assigned to the category, as counted by the exact
head count query of `deleteCategory`. -/
def categoryProductCount (products : List Product) (cid : String) : Nat :=
  (products.filter (fun p => p.category_id = some cid)).length

/-- The `deleteCategory` server action (categories actions, lines 123-158):
require an authenticated user; count the products whose `category_id` is the
category; when the count is positive, answer an error naming that count and
leave the categories untouched; only with a zero count issue the delete of
the category row. -/
def deleteCategory (user : Option String) (countOk : Bool) (products : List Product)
    (categories : List String) (cid : String) : DeleteCategoryResult × List String :=
  match user with
  | none => (.notAuthenticated, categories)
  | some _ =>
    if countOk = false then (.countFailed, categories)
    else
      let count := categoryProductCount products cid
      if 0 < count then
        (.blocked ("No se puede eliminar la categoría porque tiene " ++ toString count ++
          " producto(s) asignado(s)"), categories)
      else (.deleted, categories.erase cid)

/-- C9: for every category with at least one assigned product,
`deleteCategory` answers an error naming the number of assigned products and
issues no delete, leaving the categories unchanged; the delete is attempted
exactly when the count is zero. -/
theorem c9_delete_category_guard :
    (∀ (u cid : String) (products : List Product) (categories : List String),
      0 < categoryProductCount products cid →
      deleteCategory (some u) true products categories cid =
        (.blocked ("No se puede eliminar la categoría porque tiene " ++
          toString (categoryProductCount products cid) ++ " producto(s) asignado(s)"),
         categories)) ∧
    (∀ (u cid : String) (products : List Product) (categories : List String),
      categoryProductCount products cid = 0 →
      deleteCategory (some u) true products categories cid =
        (.deleted, categories.erase cid)) := by
  constructor
  · intro u cid products categories hpos
    simp [deleteCategory, hpos]
  · intro u cid products categories hzero
    simp [deleteCategory, hzero]

/-- Witness for C9: a category with one assigned product is blocked with a
message naming the count 1, and the category list is unchanged. -/
theorem c9_delete_category_guard_witness :
    deleteCategory (some "u1") true [⟨"p1", "Cafe", "123", 4, some "c1", 10⟩]
      ["c1", "c2"] "c1" =
      (DeleteCategoryResult.blocked ("No se puede eliminar la categoría porque tiene " ++
        toString (categoryProductCount [⟨"p1", "Cafe", "123", 4, some "c1", 10⟩] "c1") ++
        " producto(s) asignado(s)"), ["c1", "c2"]) :=
  c9_delete_category_guard.1 "u1" "c1" [⟨"p1", "Cafe", "123", 4, some "c1", 10⟩]
    ["c1", "c2"] (by decide)

/-- Descending insertion by creation time. -/
def insertDesc (p : Product) : List Product → List Product
  | [] => [p]
  | q :: rest =>
    if q.created_at ≤ p.created_at then p :: q :: rest else q :: insertDesc p rest

/-- Sort newest first, the `order by created_at descending` of the product
queries. -/
def sortNewestFirst : List Product → List Product
  | [] => []
  | p :: rest => insertDesc p (sortNewestFirst rest)

/-- The `getProducts` server action (`products.ts` lines 45-68): the
full product list of the authenticated user, newest first. -/
def getProducts (store : List Product) : List Product :=
  sortNewestFirst store

/-- Case-insensitive containment, the SQL `ilike` pattern of
`searchProducts`. -/
def ilikeContains (s q : String) : Bool :=
  strContains (strToLower s) (strToLower q)

/-- The `searchProducts` server action (`products.ts` lines 131-156): when
the query trims to the empty string, return `getProducts`; otherwise filter
by name or code pattern match, newest first. -/
def searchProducts (query : String) (store : List Product) : List Product :=
  if strTrim query = "" then getProducts store
  else
    sortNewestFirst (store.filter
      (fun p => ilikeContains p.name query || ilikeContains p.code query))

/-- C10: an empty or whitespace-only query makes `searchProducts` return
exactly the result of `getProducts` instead of filtering; only a query with
non-whitespace content triggers the name/code pattern matching. -/
theorem c10_blank_query_is_get_products :
    (∀ (query : String) (store : List Product), strTrim query = "" →
      searchProducts query store = getProducts store) ∧
    (∀ (query : String) (store : List Product), strTrim query ≠ "" →
      searchProducts query store = sortNewestFirst (store.filter
        (fun p => ilikeContains p.name query || ilikeContains p.code query))) := by
  constructor
  · intro query store h
    simp [searchProducts, h]
  · intro query store h
    simp [searchProducts, h]

/-- Witness for C10: a whitespace-only query returns the full product list. -/
theorem c10_blank_query_is_get_products_witness :
    searchProducts "   " [⟨"p1", "Cafe", "123", 4, none, 10⟩] =
      getProducts [⟨"p1", "Cafe", "123", 4, none, 10⟩] :=
  c10_blank_query_is_get_products.1 "   " [⟨"p1", "Cafe", "123", 4, none, 10⟩] (by decide)

end X8n
